import Mathlib

/-!
Verification of the cronus-linux native activity-capture pipeline.

Shallow embedding of the Linux tracking modules:
  * `trackingCoordinator.ts` (`createStabilizingWrapper`)
  * `hyprland/windowTracker.ts` (debounce state machine, `captureCurrentWindow`)
  * `browser/browserTracker.ts` and the file-based renderer variant
  * `screenshot/screenshotManager.ts` (tessdata resolution, OCR, metadata
    queue, cleanup)
  * `system/systemEventObserver.ts` (`emitSystemEvent`)

Timestamps are Lean `Int` values standing for JavaScript epoch milliseconds.
Callback invocations are modelled as lists of the arguments the downstream
callback receives, so "invoked zero times" is the empty list.
-/

namespace Cronus

/-- Shallow embedding of the `ActiveWindowDetails` event shape used by the
Linux native module (`shared` types).  Optional JS fields are `Option`;
`null` and `undefined` are both `none`. -/
structure ActiveWindowDetails where
  windowId : Nat
  ownerName : String
  type : String
  browser : Option String
  title : Option String
  url : Option String
  content : Option String
  timestamp : Int
  contentSource : Option String
  captureReason : String
  durationMs : Nat
deriving Repr, DecidableEq

/-! ## Tracking coordinator (`trackingCoordinator.ts`) -/

/-- Source constant `TRACKER_STABILIZATION_PERIOD_MS = 10000`. -/
def TRACKER_STABILIZATION_PERIOD_MS : Int := 10000

/-- Embedding of `createStabilizingWrapper`: for one incoming event arriving
at wall-clock time `now`, the returned list is the sequence of downstream
callback invocations the wrapper performs (each element is the argument
passed to the callback).  The source drops the event when
`Date.now() - trackerStartTime < periodMs` and otherwise forwards the
unmodified event exactly once; an absent `trackerStartTime` forwards. -/
def createStabilizingWrapper (trackerStartTime : Option Int) (periodMs : Int)
    (now : Int) (details : Option ActiveWindowDetails) :
    List (Option ActiveWindowDetails) :=
  match trackerStartTime with
  | some t0 => if now - t0 < periodMs then [] else [details]
  | none => [details]

/-! ## Hyprland window tracker (`hyprland/windowTracker.ts`) -/

/-- Source constant `STABILIZATION_DELAY_MS = 100`. -/
def STABILIZATION_DELAY_MS : Int := 100

/-- Source constant `DEBOUNCE_DELAY_MS = 10 * 1000`. -/
def DEBOUNCE_DELAY_MS : Int := 10000

/-- Fields of the `hyprctl activewindow -j` JSON that `captureCurrentWindow`
reads (`address`, `class`, `initialClass`, `title`); `cls` stands for the
reserved word `class`. -/
structure HyprlandWindow where
  address : String
  cls : String
  initialClass : String
  title : String
deriving Repr, DecidableEq

/-- The `BROWSER_DETECTION` map from `native-linux/types.ts`, as an
association list preserving insertion order. -/
def BROWSER_DETECTION : List (String × String) :=
  [("google-chrome", "chrome"), ("Google-chrome", "chrome"),
   ("chromium", "chrome"), ("Chromium", "chrome"),
   ("chromium-browser", "chrome"), ("brave-browser", "chrome"),
   ("Brave", "chrome"), ("Brave-browser", "chrome"),
   ("Arc", "arc"), ("arc", "arc"), ("Helium", "arc"), ("helium", "arc")]

/-- Prefix test on character lists (`List.isPrefixOf` over chars). -/
def charStartsWith : List Char → List Char → Bool
  | _, [] => true
  | [], _ :: _ => false
  | a :: as, b :: bs => a == b && charStartsWith as bs

/-- Occurrence test on character lists. -/
def charContainsSub : List Char → List Char → Bool
  | [], sub => sub.isEmpty
  | a :: as, sub => charStartsWith (a :: as) sub || charContainsSub as sub

/-- JavaScript `String.prototype.includes`: does `sub` occur in `s`? -/
def jsIncludes (s sub : String) : Bool := charContainsSub s.data sub.data

/-- JavaScript `String.prototype.toLowerCase` for the ASCII class names seen
here. -/
def jsToLower (s : String) : String := String.mk (s.data.map Char.toLower)

/-- Embedding of `detectBrowser`: exact key lookup in `BROWSER_DETECTION`,
then case-insensitive key lookup, then substring heuristics. -/
def detectBrowser (windowClass : String) : Option String :=
  if windowClass = "" then none
  else
    match (BROWSER_DETECTION.find? (fun p => p.1 == windowClass)).map (·.2) with
    | some v => some v
    | none =>
      let lower := jsToLower windowClass
      match (BROWSER_DETECTION.find? (fun p => jsToLower p.1 == lower)).map (·.2) with
      | some v => some v
      | none =>
        if jsIncludes lower "chrome" ∨ jsIncludes lower "chromium" then some "chrome"
        else if jsIncludes lower "arc" then some "arc"
        else if jsIncludes lower "brave" then some "chrome"
        else if jsIncludes lower "helium" then some "arc"
        else none

/-- JavaScript `a || b` on strings: the empty string is falsy. -/
def jsOr (a b : String) : String := if a = "" then b else a

/-- Value of a single hexadecimal digit, if any. -/
def hexDigitVal (c : Char) : Option Nat :=
  if c.isDigit then some (c.toNat - 48)
  else if 97 ≤ c.toNat ∧ c.toNat ≤ 102 then some (c.toNat - 87)
  else if 65 ≤ c.toNat ∧ c.toNat ≤ 70 then some (c.toNat - 55)
  else none

/-- Accumulate leading hexadecimal digits, stopping at the first non-digit
(the way `parseInt(s, 16)` consumes its input). -/
def parseHexAux : List Char → Nat → Nat
  | [], acc => acc
  | c :: cs, acc =>
    match hexDigitVal c with
    | some v => parseHexAux cs (acc * 16 + v)
    | none => acc

/-- Embedding of `parseInt(s, 16)` for the strings produced here (no leading
whitespace or sign): `none` models `NaN` when the first character is not a
hex digit. -/
def jsParseIntHex (s : String) : Option Nat :=
  match s.data with
  | [] => none
  | c :: _ =>
    match hexDigitVal c with
    | none => none
    | some _ => some (parseHexAux s.data 0)

/-- Drop the first occurrence of `0x` from a character list. -/
def charRemoveFirst0x : List Char → List Char
  | [] => []
  | '0' :: 'x' :: rest => rest
  | c :: cs => c :: charRemoveFirst0x cs

/-- JavaScript `address.replace('0x', '')`: a string pattern replaces the
first occurrence only. -/
def jsRemove0x (s : String) : String := String.mk (charRemoveFirst0x s.data)

/-- The `ActiveWindowDetails` literal built inside `captureCurrentWindow`
from the introspected window `w` at capture time `t` for `reason`. -/
def mkDetails (w : HyprlandWindow) (t : Int) (reason : String) :
    ActiveWindowDetails :=
  let browser := detectBrowser w.cls
  { windowId := (jsParseIntHex (jsRemove0x w.address)).getD 0
    ownerName := jsOr w.cls (jsOr w.initialClass "Unknown")
    type := if browser.isSome then "browser" else "window"
    browser := browser
    title := if w.title = "" then none else some w.title
    url := none
    content := none
    timestamp := t
    contentSource := none
    captureReason := if reason = "periodic_backup" then "periodic_backup" else "app_switch"
    durationMs := 0 }

/-- Which of the tracker's two chained timers is pending (the source never
has both non-null: `handleWindowSwitch` clears both before arming the
stabilization timer, whose callback arms the debounce timer). -/
inductive TimerPhase
  | stab
  | deb
deriving Repr, DecidableEq

/-- Mutable state of `HyprlandWindowTracker` relevant to event handling:
the pending timer (phase and absolute deadline), `pendingCaptureReason`,
`lastWindowAddress` and `lastWindowDetails`. -/
structure TrackerState where
  timer : Option (TimerPhase × Int)
  pendingCaptureReason : Option String
  lastWindowAddress : Option String
  lastWindowDetails : Option ActiveWindowDetails
deriving Repr, DecidableEq

/-- Tracker state right after `start()` resets everything. -/
def initialTrackerState : TrackerState :=
  { timer := none, pendingCaptureReason := none,
    lastWindowAddress := none, lastWindowDetails := none }

/-- Embedding of `captureCurrentWindow(reason)` executed at time `t`.
`winAt` is the `hyprctl activewindow -j` introspection: `none` models a
failed or unparseable invocation, in which case the source calls the
callback with `null`.  The returned list holds the callback invocations,
tagged with the time at which they happen. -/
def captureCurrentWindow (winAt : Int → Option HyprlandWindow) (t : Int)
    (reason : String) (s : TrackerState) :
    TrackerState × List (Int × Option ActiveWindowDetails) :=
  match winAt t with
  | none => (s, [(t, none)])
  | some w =>
    if reason = "periodic_backup" ∧ s.lastWindowAddress = some w.address then
      (s, [])
    else
      let details := mkDetails w t reason
      ({ s with lastWindowAddress := some w.address,
                lastWindowDetails := some details },
       [(t, some details)])

/-- Embedding of `handleWindowSwitch` called when a socket record arrives at
time `now`: both timers are cleared, `pendingCaptureReason` is set to
`app_switch`, and the 100 ms stabilization timer is armed. -/
def handleWindowSwitch (now : Int) (s : TrackerState) : TrackerState :=
  { s with timer := some (TimerPhase.stab, now + STABILIZATION_DELAY_MS),
           pendingCaptureReason := some "app_switch" }

/-- Characters before the first `>>` occurrence (the whole list when there
is none). -/
def charTakeUntilSep : List Char → List Char
  | [] => []
  | '>' :: '>' :: _ => []
  | c :: cs => c :: charTakeUntilSep cs

/-- The `eventtype` in a `type>>payload` socket line: `event.split('>>')[0]`
is exactly the prefix before the first `>>`. -/
def parseEventType (line : String) : String := String.mk (charTakeUntilSep line.data)

/-- Embedding of `handleEvent`: only an `activewindow` record reaches
`handleWindowSwitch`; `activewindowv2`, `workspace`, `closewindow` and
unknown types fall through with no state change. -/
def handleEvent (now : Int) (line : String) (s : TrackerState) : TrackerState :=
  if parseEventType line = "activewindow" then handleWindowSwitch now s else s

/-- Fire every timer whose deadline has passed by time `now`.  A due
stabilization timer re-arms as the debounce timer at `deadline + 10000`;
a due debounce timer consumes `pendingCaptureReason` (`this.pendingCaptureReason!`,
always `app_switch` on this path) and runs `captureCurrentWindow` at its own
deadline. -/
def fireDue (winAt : Int → Option HyprlandWindow) (now : Int)
    (s : TrackerState) : TrackerState × List (Int × Option ActiveWindowDetails) :=
  match s.timer with
  | none => (s, [])
  | some (TimerPhase.stab, d) =>
    if d ≤ now then
      if d + DEBOUNCE_DELAY_MS ≤ now then
        let reason := s.pendingCaptureReason.getD "app_switch"
        captureCurrentWindow winAt (d + DEBOUNCE_DELAY_MS) reason
          { s with timer := none, pendingCaptureReason := none }
      else
        ({ s with timer := some (TimerPhase.deb, d + DEBOUNCE_DELAY_MS) }, [])
    else (s, [])
  | some (TimerPhase.deb, d) =>
    if d ≤ now then
      let reason := s.pendingCaptureReason.getD "app_switch"
      captureCurrentWindow winAt d reason
        { s with timer := none, pendingCaptureReason := none }
    else (s, [])

/-- Process timestamped socket records in arrival order; before each record
is handled, timers already due fire. -/
def runEvents (winAt : Int → Option HyprlandWindow) :
    List (Int × String) → TrackerState →
    TrackerState × List (Int × Option ActiveWindowDetails)
  | [], s => (s, [])
  | (t, line) :: rest, s =>
    let p1 := fireDue winAt t s
    let s2 := handleEvent t line p1.1
    let p3 := runEvents winAt rest s2
    (p3.1, p1.2 ++ p3.2)

/-- Let all remaining timers run to completion (no further input arrives). -/
def flushTimers (winAt : Int → Option HyprlandWindow) (s : TrackerState) :
    TrackerState × List (Int × Option ActiveWindowDetails) :=
  match s.timer with
  | none => (s, [])
  | some (TimerPhase.stab, d) =>
    let reason := s.pendingCaptureReason.getD "app_switch"
    captureCurrentWindow winAt (d + DEBOUNCE_DELAY_MS) reason
      { s with timer := none, pendingCaptureReason := none }
  | some (TimerPhase.deb, d) =>
    let reason := s.pendingCaptureReason.getD "app_switch"
    captureCurrentWindow winAt d reason
      { s with timer := none, pendingCaptureReason := none }

/-- Run a whole trace from a freshly started tracker: process all records,
then let the pending timers elapse. -/
def runTrace (winAt : Int → Option HyprlandWindow)
    (events : List (Int × String)) :
    TrackerState × List (Int × Option ActiveWindowDetails) :=
  let p := runEvents winAt events initialTrackerState
  let q := flushTimers winAt p.1
  (q.1, p.2 ++ q.2)

/-! ## Browser URL enrichment -/

/-- Tab data returned by the CDP query in `browser/browserTracker.ts`. -/
structure BrowserTab where
  url : String
  title : String
deriving Repr, DecidableEq

/-- Embedding of `BrowserTracker.enrichWithBrowserUrl` (CDP variant):
non-browser events (or events with no detected browser) pass through
untouched; otherwise `tab` is the `getCurrentTab` result (`none` when CDP
is unavailable or failed) and on success the url is overwritten and the
title replaced when the tab title is truthy. -/
def enrichWithBrowserUrl (details : ActiveWindowDetails)
    (tab : Option BrowserTab) : ActiveWindowDetails :=
  if details.type ≠ "browser" ∨ details.browser = none then details
  else
    match tab with
    | some tb =>
      { details with url := some tb.url,
                     title := if tb.title = "" then details.title else some tb.title }
    | none => details

/-- The parsed content of a browser hand-off file
`/tmp/cronus-url-<browser>.json` (renderer file-based variant). -/
structure HandoffFile where
  url : String
  timestamp : Int
deriving Repr, DecidableEq

/-- Embedding of the file-based `BrowserTracker.getCurrentTab`.
`fileRead = none` models `readFileSync` throwing or `JSON.parse` throwing
(the `catch` returns `null`).  A value older than 15000 ms is stale and
discarded.  The result is the `BrowserTab` url, if any. -/
def fileGetCurrentTab (isRunning : Bool) (browserType : Option String)
    (fileRead : Option HandoffFile) (now : Int) : Option String :=
  if ¬ isRunning ∨ browserType = none then none
  else
    match fileRead with
    | none => none
    | some f => if now - f.timestamp > 15000 then none else some f.url

/-- Embedding of the file-based `BrowserTracker.enrichWithBrowserUrl`:
no-op unless the event is a browser event; on a fresh hand-off value only
the url field is filled in. -/
def fileEnrichWithBrowserUrl (isRunning : Bool)
    (fileRead : Option HandoffFile) (now : Int)
    (details : ActiveWindowDetails) : ActiveWindowDetails :=
  if details.type ≠ "browser" ∨ details.browser = none then details
  else
    match fileGetCurrentTab isRunning details.browser fileRead now with
    | some url => { details with url := some url }
    | none => details

/-! ## System event observer (`system/systemEventObserver.ts`) -/

/-- The `SystemEventType` union `'sleep' | 'wake' | 'lock' | 'unlock'`. -/
inductive SystemEventType
  | sleep
  | wake
  | lock
  | unlock
deriving Repr, DecidableEq

/-- The `ownerNameMap` literal in `emitSystemEvent`. -/
def systemOwnerName : SystemEventType → String
  | .sleep => "System Sleep"
  | .wake => "System Wake"
  | .lock => "System Lock"
  | .unlock => "System Unlock"

/-- The `titleMap` literal in `emitSystemEvent`. -/
def systemTitle : SystemEventType → String
  | .sleep => "Computer going to sleep"
  | .wake => "Computer woke from sleep"
  | .lock => "Screen was locked"
  | .unlock => "Screen was unlocked"

/-- The `captureReasonMap` literal in `emitSystemEvent`: lock folds into
`system_sleep` and unlock into `system_wake`. -/
def systemCaptureReason : SystemEventType → String
  | .sleep => "system_sleep"
  | .wake => "system_wake"
  | .lock => "system_sleep"
  | .unlock => "system_wake"

/-- The synthetic `ActiveWindowDetails` literal built by `emitSystemEvent`
at time `t` (fields the source does not set are `undefined`, hence `none`). -/
def emitSystemEvent (eventType : SystemEventType) (t : Int) :
    ActiveWindowDetails :=
  { windowId := 0
    ownerName := systemOwnerName eventType
    type := "system"
    browser := none
    title := some (systemTitle eventType)
    url := none
    content := none
    timestamp := t
    contentSource := none
    captureReason := systemCaptureReason eventType
    durationMs := 0 }

/-! ## Screenshot manager (`screenshot/screenshotManager.ts`) -/

/-- Source constant `MAX_OCR_TEXT_LENGTH = 2000`. -/
def MAX_OCR_TEXT_LENGTH : Nat := 2000

/-- Source constant `TESSDATA_FAST_DIR`. -/
def TESSDATA_FAST_DIR : String := "/usr/share/tessdata_fast"

/-- Source constant `TESSDATA_FAST_ENG = path.join(TESSDATA_FAST_DIR, 'eng.traineddata')`. -/
def TESSDATA_FAST_ENG : String := TESSDATA_FAST_DIR ++ "/eng.traineddata"

/-- Result shape of `resolveTessdataEnv`: `env = none` models the returned
object carrying no `env` key at all (so `execFile` inherits the untouched
process environment); otherwise the environment passed to the OCR tool,
as a map from variable name to value. -/
structure TessdataResolution where
  env : Option (String → Option String)
  label : String

/-- Embedding of `resolveTessdataEnv`.  `access` is the `fs.access`
readability check performed on this call; `baseEnv` is `process.env`.
When the fast dataset file is readable, the override environment is the
spread of `process.env` with `TESSDATA_PREFIX` set to the fast directory
followed by `path.sep`; otherwise no environment is produced. -/
def resolveTessdataEnv (access : String → Bool)
    (baseEnv : String → Option String) : TessdataResolution :=
  if access TESSDATA_FAST_ENG then
    { env := some (fun k =>
        if k = "TESSDATA_PREFIX" then some (TESSDATA_FAST_DIR ++ "/") else baseEnv k)
      label := "tessdata_fast" }
  else { env := none, label := "tessdata_best (fast not available)" }

/-- Dataset decisions for a sequence of OCR calls: the detection runs inside
every `performOCR` call against the filesystem state seen by that call;
nothing is cached between calls. -/
def ocrEnvDecisions (accessPerCall : List (String → Bool))
    (baseEnv : String → Option String) : List TessdataResolution :=
  accessPerCall.map (fun a => resolveTessdataEnv a baseEnv)

/-- JavaScript `String.prototype.trim`: strip leading and trailing
whitespace. -/
def jsTrim (s : String) : String :=
  String.mk (((s.data.dropWhile Char.isWhitespace).reverse.dropWhile Char.isWhitespace).reverse)

/-- Truncation `text.substring(0, MAX_OCR_TEXT_LENGTH)` applied after
`stdout.trim()` when the extracted text is too long. -/
def truncateOCRText (s : String) : String :=
  if s.length > MAX_OCR_TEXT_LENGTH then String.mk (s.data.take MAX_OCR_TEXT_LENGTH) else s

/-- One `performOCR` invocation's view of the outside world: the per-call
`fs.access` check and the tesseract run.  `tesseract = none` models any
failure of the tool invocation — 60 s timeout exceeded, non-zero exit,
malformed output — all of which land in the `catch` and yield `undefined`. -/
structure OCRCall where
  access : String → Bool
  tesseract : Option String
deriving Inhabited

/-- Embedding of `ScreenshotManager.performOCR`: on tool success the stdout
is trimmed and truncated to 2000 characters; on any failure the result is
`undefined` and no exception escapes. -/
def performOCR (c : OCRCall) : Option String :=
  c.tesseract.map (fun out => truncateOCRText (jsTrim out))

/-- The `ScreenshotSettings` shape. -/
structure ScreenshotSettings where
  captureMode : String
  captureQuality : Nat
  enableOCR : Bool
  ocrLanguage : String
deriving Repr, DecidableEq

/-- The `ScreenshotResult` shape returned by `captureAndOCR`. -/
structure ScreenshotResult where
  success : Bool
  imagePath : Option String
  ocrText : Option String
  error : Option String
deriving Repr, DecidableEq

/-- One `captureAndOCR` invocation's view of the outside world.
`grimOutput = none` models `captureScreenshot` failing (its own `catch`
returns `null`); `saveOutcome` is `saveScreenshot` either throwing (the
error message, caught by the outer `catch`) or returning the image path. -/
structure CaptureAttempt where
  grimOutput : Option (List Nat)
  saveOutcome : Except String String
  settings : ScreenshotSettings
  ocr : OCRCall

/-- Embedding of `ScreenshotManager.captureAndOCR`. -/
def captureAndOCR (a : CaptureAttempt) : ScreenshotResult :=
  match a.grimOutput with
  | none => { success := false, imagePath := none, ocrText := none,
              error := some "Screenshot capture failed" }
  | some _ =>
    match a.saveOutcome with
    | Except.error msg =>
      { success := false, imagePath := none, ocrText := none, error := some msg }
    | Except.ok imagePath =>
      let ocrText := if a.settings.enableOCR then performOCR a.ocr else none
      { success := true, imagePath := some imagePath, ocrText := ocrText,
        error := none }

/-! ## Per-folder metadata write queue

`enqueueFolderWrite` chains every queued operation for one folder onto the
promise tail of the previous one (`previous.catch(() => {}).then(op)`), so
the per-folder schedule is the concatenation of the operations' steps in
enqueue order; operations for different folders live in unrelated map
entries and may interleave arbitrarily.  A queued `updateMetadata` operation
is a read-merge-write: read the folder's `metadata.json` (a missing or
unparseable file reads as the empty index), push the new entry, stable-sort
ascending by timestamp, write back. -/

/-- One entry of a date folder's `metadata.json` index. -/
structure MetaEntry where
  timestamp : Int
  filepath : String
  filename : String
  appName : String
  title : String
deriving Repr, DecidableEq

/-- Ascending-timestamp order used by
`metadata.screenshots.sort((a, b) => a.timestamp - b.timestamp)`. -/
def tsLe (a b : MetaEntry) : Prop := a.timestamp ≤ b.timestamp

instance : DecidableRel tsLe := fun a b => inferInstanceAs (Decidable (a.timestamp ≤ b.timestamp))

instance : IsTotal MetaEntry tsLe := ⟨fun a b => Int.le_total a.timestamp b.timestamp⟩

instance : IsTrans MetaEntry tsLe := ⟨fun _ _ _ h1 h2 => le_trans h1 h2⟩

/-- A queued `updateMetadata` operation: the target date folder, the entry
to merge in, and whether its write step fails (the failure is caught and
logged, the queued promise still settles). -/
structure FolderOp where
  folder : String
  entry : MetaEntry
  writeFails : Bool
deriving Repr, DecidableEq

/-- Atomic execution state: the on-disk index per folder and, per operation,
the snapshot its read step captured. -/
structure ExecState where
  store : String → List MetaEntry
  snap : Nat → List MetaEntry

/-- Fresh state: no folder has an index yet, no operation has read. -/
def initExecState : ExecState := ⟨fun _ => [], fun _ => []⟩

/-- Push the new entry onto the snapshot that was read, then stable-sort
ascending by timestamp (the body of the queued operation between read and
write). -/
def mergeEntries (read : List MetaEntry) (e : MetaEntry) : List MetaEntry :=
  List.insertionSort tsLe (read ++ [e])

/-- One atomic step of operation `step.1`: its read (`step.2 = false`)
snapshots the folder index, its write (`step.2 = true`) replaces the folder
index with the merged result — unless the write fails, in which case the
index is untouched. -/
def execStep (spec : Nat → FolderOp) (st : ExecState) (step : Nat × Bool) :
    ExecState :=
  let o := spec step.1
  if step.2 then
    if o.writeFails then st
    else { st with store := fun f =>
      if f = o.folder then mergeEntries (st.snap step.1) o.entry else st.store f }
  else { st with snap := fun i =>
    if i = step.1 then st.store o.folder else st.snap i }

/-- Run a schedule of atomic steps left to right. -/
def execTrace (spec : Nat → FolderOp) (st : ExecState)
    (tr : List (Nat × Bool)) : ExecState :=
  tr.foldl (execStep spec) st

/-- The two steps of one read-merge-write operation, in order. -/
def opProgram (i : Nat) : List (Nat × Bool) := [(i, false), (i, true)]

/-- The schedule `enqueueFolderWrite` produces for one folder's queue:
each queued operation begins only after the previous one has settled, so
the steps are concatenated in enqueue order. -/
def folderQueueProgram (ops : List Nat) : List (Nat × Bool) :=
  (ops.map opProgram).flatten

/-- `Interleaving xs ys zs`: `zs` is an order-preserving merge of `xs` and
`ys` (the schedules an event loop may produce for two independent promise
chains). -/
inductive Interleaving :
    List (Nat × Bool) → List (Nat × Bool) → List (Nat × Bool) → Prop
  | nil : Interleaving [] [] []
  | left {x : Nat × Bool} {xs ys zs : List (Nat × Bool)} :
      Interleaving xs ys zs → Interleaving (x :: xs) ys (x :: zs)
  | right {y : Nat × Bool} {xs ys zs : List (Nat × Bool)} :
      Interleaving xs ys zs → Interleaving xs (y :: ys) (y :: zs)

/-! ## Date folders and cleanup (`getAvailableDates`, `cleanupOldScreenshots`) -/

/-- JavaScript string `<` (UTF-16 code-unit lexicographic order), on the
underlying character lists. -/
def jsCharListLt : List Char → List Char → Bool
  | [], [] => false
  | [], _ :: _ => true
  | _ :: _, [] => false
  | a :: as, b :: bs =>
    if a.toNat < b.toNat then true
    else if b.toNat < a.toNat then false
    else jsCharListLt as bs

/-- JavaScript `a < b` on strings. -/
def jsStrLt (a b : String) : Bool := jsCharListLt a.data b.data

/-- Two-digit zero padding: `String(n).padStart(2, '0')` for `n ≤ 99`. -/
def pad2 (n : Nat) : String := if n < 10 then "0" ++ toString n else toString n

/-- Embedding of `formatLocalDateYYYYMMDD` on a `(year, month, day)`
triple. -/
def formatLocalDateYYYYMMDD (d : Nat × Nat × Nat) : String :=
  toString d.1 ++ "-" ++ pad2 d.2.1 ++ "-" ++ pad2 d.2.2

/-- Proleptic Gregorian calendar date for a day number, where day `0` is
0000-03-01 (the standard civil-from-days algorithm, restricted to
non-negative day numbers).  JavaScript `Date` day arithmetic
(`setDate(getDate() - keepDays)`) is subtraction on this day number. -/
def civilFromDays (z : Nat) : Nat × Nat × Nat :=
  let era := z / 146097
  let doe := z % 146097
  let yoe := (doe - doe / 1460 + doe / 36524 - doe / 146097) / 365
  let y := yoe + era * 400
  let doy := doe - (365 * yoe + yoe / 4 - yoe / 100)
  let mp := (5 * doy + 2) / 153
  let d := doy - (153 * mp + 2) / 5 + 1
  let m := if mp < 10 then mp + 3 else mp - 9
  (if m ≤ 2 then y + 1 else y, m, d)

/-- The folder-name validation `/^\d{4}-\d{2}-\d{2}$/`. -/
def isValidDateName (s : String) : Bool :=
  match s.data with
  | [y1, y2, y3, y4, s1, m1, m2, s2, d1, d2] =>
    y1.isDigit && y2.isDigit && y3.isDigit && y4.isDigit && s1 == '-' &&
      m1.isDigit && m2.isDigit && s2 == '-' && d1.isDigit && d2.isDigit
  | _ => false

/-- Embedding of `getAvailableDates`: directory entries (name, isDirectory)
are filtered to validly-named date directories, sorted ascending by the
JavaScript default string order, then reversed (most recent first). -/
def getAvailableDates (entries : List (String × Bool)) : List String :=
  (List.insertionSort (fun a b => jsStrLt b a = false)
    ((entries.filter (fun e => e.2 && isValidDateName e.1)).map (·.1))).reverse

/-- Embedding of `cleanupOldScreenshots(keepDays)` run on day number
`todayDays`.  `rmOk` tells whether `fs.rm` succeeds for a folder; a failed
deletion is logged and skipped, the loop continues.  Returns the deletion
count the source returns, paired with the list of folders actually
deleted. -/
def cleanupOldScreenshots (todayDays keepDays : Nat)
    (entries : List (String × Bool)) (rmOk : String → Bool) :
    Nat × List String :=
  let cutoffString := formatLocalDateYYYYMMDD (civilFromDays (todayDays - keepDays))
  let dates := getAvailableDates entries
  dates.foldl
    (fun acc date =>
      if jsStrLt date cutoffString then
        if rmOk date then (acc.1 + 1, acc.2 ++ [date]) else acc
      else acc)
    (0, [])

/-! ## Derived notions used by the statements -/

/-- The emitted-event invariant of the spec: non-empty `ownerName`, a
timestamp no later than the capture instant, and `url` populated only for
browser events. -/
def eventInvariant (now : Int) (d : ActiveWindowDetails) : Prop :=
  d.ownerName ≠ "" ∧ d.timestamp ≤ now ∧ (d.url ≠ none → d.type = "browser")

/-- Tracker state immediately after `handleWindowSwitch` ran at time `t`:
the stabilization timer is armed for `t + 100` and an `app_switch` capture
is pending. -/
def switchPendingState (t : Int) (la : Option String)
    (ld : Option ActiveWindowDetails) : TrackerState :=
  { timer := some (TimerPhase.stab, t + STABILIZATION_DELAY_MS)
    pendingCaptureReason := some "app_switch"
    lastWindowAddress := la
    lastWindowDetails := ld }

/-- Agreement of two execution states on one folder: same on-disk index for
that folder and same snapshots for every operation targeting it. -/
def agreesOnFolder (spec : Nat → FolderOp) (f : String)
    (st1 st2 : ExecState) : Prop :=
  st1.store f = st2.store f ∧ ∀ i, (spec i).folder = f → st1.snap i = st2.snap i

/-! ## Theorems -/

/-- C1: for every event passed to the wrapper produced by
`createStabilizingWrapper(trackerStartTime, periodMs, callback)`: when
`trackerStartTime` is defined and the arrival time minus it is strictly
below `periodMs`, the downstream callback is invoked zero times; when the
elapsed time is at least `periodMs`, it is invoked exactly once with the
unmodified event; when `trackerStartTime` is undefined the callback is
always invoked (fail open). -/
theorem stabilizing_wrapper_gates_events (tst : Option Int) (periodMs now : Int)
    (d : Option ActiveWindowDetails) :
    (∀ t0, tst = some t0 →
      (now - t0 < periodMs → createStabilizingWrapper tst periodMs now d = []) ∧
      (periodMs ≤ now - t0 → createStabilizingWrapper tst periodMs now d = [d])) ∧
    (tst = none → createStabilizingWrapper tst periodMs now d = [d]) := by
  constructor
  · rintro t0 rfl
    constructor
    · intro h
      simp [createStabilizingWrapper, h]
    · intro h
      simp [createStabilizingWrapper, not_lt.mpr h]
  · rintro rfl
    rfl

/-- Witness for C1: a concrete event 5000 ms after start is dropped, one
10000 ms after start is forwarded once unmodified, and one with no start
time recorded is forwarded. -/
theorem stabilizing_wrapper_gates_events_witness :
    createStabilizingWrapper (some 1000) TRACKER_STABILIZATION_PERIOD_MS 6000 none = [] ∧
    createStabilizingWrapper (some 1000) TRACKER_STABILIZATION_PERIOD_MS 11000 none = [none] ∧
    createStabilizingWrapper none TRACKER_STABILIZATION_PERIOD_MS 0 none = [none] :=
  ⟨((stabilizing_wrapper_gates_events (some 1000) TRACKER_STABILIZATION_PERIOD_MS 6000 none).1
      1000 rfl).1 (by decide),
   ((stabilizing_wrapper_gates_events (some 1000) TRACKER_STABILIZATION_PERIOD_MS 11000 none).1
      1000 rfl).2 (by decide),
   (stabilizing_wrapper_gates_events none TRACKER_STABILIZATION_PERIOD_MS 0 none).2 rfl⟩

/-- C4: browser-kind events enriched via the hand-off-file strategy: a file
older than 15000 ms leaves the event unchanged (url stays unset), a file
within 15000 ms fills in the file's url, and a read or parse failure leaves
the event unchanged. -/
theorem handoff_enrichment_spec (details : ActiveWindowDetails) (b : String)
    (htype : details.type = "browser") (hbrowser : details.browser = some b)
    (now : Int) :
    (∀ f : HandoffFile, now - f.timestamp > 15000 →
      fileEnrichWithBrowserUrl true (some f) now details = details) ∧
    (∀ f : HandoffFile, now - f.timestamp ≤ 15000 →
      fileEnrichWithBrowserUrl true (some f) now details =
        { details with url := some f.url }) ∧
    fileEnrichWithBrowserUrl true none now details = details := by
  refine ⟨fun f hf => ?_, fun f hf => ?_, ?_⟩ <;>
    simp_all [fileEnrichWithBrowserUrl, fileGetCurrentTab, htype, hbrowser, not_lt.mpr]

/-- Witness for C4: with the event produced by a chrome window and a file
written 20000 ms ago the event is unchanged (url unset); 5000 ms ago the
url is taken from the file; a failed read leaves it unchanged. -/
theorem handoff_enrichment_spec_witness :
    (fileEnrichWithBrowserUrl true (some ⟨"https://x.test/", 80000⟩) 100000
        (mkDetails ⟨"0x1", "google-chrome", "google-chrome", "T"⟩ 99000 "app_switch") =
      mkDetails ⟨"0x1", "google-chrome", "google-chrome", "T"⟩ 99000 "app_switch") ∧
    (fileEnrichWithBrowserUrl true (some ⟨"https://x.test/", 95000⟩) 100000
        (mkDetails ⟨"0x1", "google-chrome", "google-chrome", "T"⟩ 99000 "app_switch") =
      { mkDetails ⟨"0x1", "google-chrome", "google-chrome", "T"⟩ 99000 "app_switch" with
          url := some "https://x.test/" }) ∧
    fileEnrichWithBrowserUrl true none 100000
        (mkDetails ⟨"0x1", "google-chrome", "google-chrome", "T"⟩ 99000 "app_switch") =
      mkDetails ⟨"0x1", "google-chrome", "google-chrome", "T"⟩ 99000 "app_switch" :=
  ⟨(handoff_enrichment_spec _ "chrome" (by decide) (by decide) 100000).1
      ⟨"https://x.test/", 80000⟩ (by decide),
   (handoff_enrichment_spec _ "chrome" (by decide) (by decide) 100000).2.1
      ⟨"https://x.test/", 95000⟩ (by decide),
   (handoff_enrichment_spec _ "chrome" (by decide) (by decide) 100000).2.2⟩

/-- C5: on each OCR invocation, when the fast-dataset file is readable the
tool environment is the process environment with the `TESSDATA_PREFIX`
override pointing at the fast directory; when it is absent no environment
override is produced at all; and the decision for each call in a sequence
depends only on that call's own filesystem check (nothing is cached). -/
theorem tessdata_selection_spec (access : String → Bool)
    (baseEnv : String → Option String) :
    (access TESSDATA_FAST_ENG = true →
      ∃ e, (resolveTessdataEnv access baseEnv).env = some e ∧
        e "TESSDATA_PREFIX" = some (TESSDATA_FAST_DIR ++ "/") ∧
        ∀ k, k ≠ "TESSDATA_PREFIX" → e k = baseEnv k) ∧
    (access TESSDATA_FAST_ENG = false →
      (resolveTessdataEnv access baseEnv).env = none) ∧
    (∀ calls : List (String → Bool), ∀ i : Nat,
      (ocrEnvDecisions calls baseEnv)[i]? =
        (calls[i]?).map (fun a => resolveTessdataEnv a baseEnv)) := by
  refine ⟨fun h => ?_, fun h => ?_, fun calls i => ?_⟩
  · refine ⟨fun k =>
      if k = "TESSDATA_PREFIX" then some (TESSDATA_FAST_DIR ++ "/") else baseEnv k,
      ?_, by simp, fun k hk => by simp [hk]⟩
    simp [resolveTessdataEnv, h]
  · simp [resolveTessdataEnv, h]
  · rw [ocrEnvDecisions, List.getElem?_map]

/-- Witness for C5: with the fast dataset readable the override points at
the fast directory; with it unreadable no override is produced; a two-call
sequence where only the second call sees the file makes the opposite
decisions on the two calls. -/
theorem tessdata_selection_spec_witness :
    (∃ e, (resolveTessdataEnv (fun _ => true) (fun _ => none)).env = some e ∧
      e "TESSDATA_PREFIX" = some (TESSDATA_FAST_DIR ++ "/") ∧
      ∀ k, k ≠ "TESSDATA_PREFIX" → e k = none) ∧
    (resolveTessdataEnv (fun _ => false) (fun _ => none)).env = none ∧
    (ocrEnvDecisions [fun _ => false, fun _ => true] (fun _ => none))[1]? =
      some (resolveTessdataEnv (fun _ => true) (fun _ => none)) :=
  ⟨(tessdata_selection_spec (fun _ => true) (fun _ => none)).1 rfl,
   (tessdata_selection_spec (fun _ => false) (fun _ => none)).2.1 rfl,
   (tessdata_selection_spec (fun _ => false) (fun _ => none)).2.2
      [fun _ => false, fun _ => true] 1⟩

/-- Length bound of the OCR truncation step. -/
theorem truncateOCRText_length_le (s : String) :
    (truncateOCRText s).length ≤ MAX_OCR_TEXT_LENGTH := by
  rw [truncateOCRText]
  split
  · exact List.length_take_le MAX_OCR_TEXT_LENGTH s.data
  · omega

/-- C6: when the screenshot step succeeded (grim produced an image and the
file was saved) but the OCR tool invocation fails — timeout, tool error,
malformed output — `captureAndOCR` returns `success = true` with the image
path set and `ocrText = undefined`, and no error is reported; when OCR
succeeds the returned text is at most 2000 characters. -/
theorem ocr_failure_is_not_pipeline_failure (a : CaptureAttempt)
    (buf : List Nat) (p : String)
    (hshot : a.grimOutput = some buf) (hsave : a.saveOutcome = Except.ok p) :
    (a.ocr.tesseract = none →
      captureAndOCR a =
        { success := true, imagePath := some p, ocrText := none, error := none }) ∧
    (∀ t, (captureAndOCR a).ocrText = some t → t.length ≤ MAX_OCR_TEXT_LENGTH) := by
  constructor
  · intro hocr
    simp [captureAndOCR, hshot, hsave, performOCR, hocr]
  · intro t ht
    by_cases he : a.settings.enableOCR
    · rcases hocr : a.ocr.tesseract with _ | out
      · simp [captureAndOCR, hshot, hsave, performOCR, hocr, he] at ht
      · simp [captureAndOCR, hshot, hsave, performOCR, hocr, he] at ht
        exact ht ▸ truncateOCRText_length_le (jsTrim out)
    · simp [captureAndOCR, hshot, hsave, he] at ht

/-- Witness for C6: a concrete attempt whose OCR times out yields a
successful result carrying the image path and no text; one whose OCR
returns a long output yields text capped at 2000 characters. -/
theorem ocr_failure_is_not_pipeline_failure_witness :
    (captureAndOCR
        { grimOutput := some [1, 2, 3]
          saveOutcome := Except.ok "/tmp/shot.jpg"
          settings := { captureMode := "window", captureQuality := 80,
                        enableOCR := true, ocrLanguage := "eng" }
          ocr := { access := fun _ => true, tesseract := none } } =
      { success := true, imagePath := some "/tmp/shot.jpg", ocrText := none,
        error := none }) ∧
    (∀ t,
      (captureAndOCR
          { grimOutput := some [1, 2, 3]
            saveOutcome := Except.ok "/tmp/shot.jpg"
            settings := { captureMode := "window", captureQuality := 80,
                          enableOCR := true, ocrLanguage := "eng" }
            ocr := { access := fun _ => true,
                     tesseract := some "extracted text" } }).ocrText = some t →
      t.length ≤ MAX_OCR_TEXT_LENGTH) :=
  ⟨(ocr_failure_is_not_pipeline_failure _ [1, 2, 3] "/tmp/shot.jpg" rfl rfl).1 rfl,
   (ocr_failure_is_not_pipeline_failure _ [1, 2, 3] "/tmp/shot.jpg" rfl rfl).2⟩

/-- C7: a periodic-backup capture cycle is suppressed (the callback is
invoked zero times) exactly when the introspected window's address equals
the stored last-seen identity; when it differs, one event tagged
`periodic_backup` is emitted and the last-seen identity is updated. -/
theorem periodic_backup_dedupe (winAt : Int → Option HyprlandWindow) (t : Int)
    (s : TrackerState) (w : HyprlandWindow) (hwin : winAt t = some w) :
    ((captureCurrentWindow winAt t "periodic_backup" s).2 = [] ↔
      s.lastWindowAddress = some w.address) ∧
    (s.lastWindowAddress ≠ some w.address →
      (captureCurrentWindow winAt t "periodic_backup" s).2 =
        [(t, some (mkDetails w t "periodic_backup"))] ∧
      (mkDetails w t "periodic_backup").captureReason = "periodic_backup" ∧
      (captureCurrentWindow winAt t "periodic_backup" s).1.lastWindowAddress =
        some w.address) := by
  constructor
  · by_cases h : s.lastWindowAddress = some w.address <;>
      simp [captureCurrentWindow, hwin, h]
  · intro h
    refine ⟨?_, rfl, ?_⟩ <;> simp [captureCurrentWindow, hwin, h]

/-- Witness for C7: with last-seen address `0x1`, introspecting the same
window emits nothing; introspecting a window at `0x2` emits one
`periodic_backup` event and stores `0x2`. -/
theorem periodic_backup_dedupe_witness :
    ((captureCurrentWindow (fun _ => some ⟨"0x1", "kitty", "kitty", "sh"⟩) 7
        "periodic_backup"
        { initialTrackerState with lastWindowAddress := some "0x1" }).2 = []) ∧
    ((captureCurrentWindow (fun _ => some ⟨"0x2", "kitty", "kitty", "sh"⟩) 7
        "periodic_backup"
        { initialTrackerState with lastWindowAddress := some "0x1" }).2 =
      [(7, some (mkDetails ⟨"0x2", "kitty", "kitty", "sh"⟩ 7 "periodic_backup"))]) :=
  ⟨(periodic_backup_dedupe (fun _ => some ⟨"0x1", "kitty", "kitty", "sh"⟩) 7
      { initialTrackerState with lastWindowAddress := some "0x1" }
      ⟨"0x1", "kitty", "kitty", "sh"⟩ rfl).1.mpr rfl,
   ((periodic_backup_dedupe (fun _ => some ⟨"0x2", "kitty", "kitty", "sh"⟩) 7
      { initialTrackerState with lastWindowAddress := some "0x1" }
      ⟨"0x2", "kitty", "kitty", "sh"⟩ rfl).2 (by decide)).1⟩

/-- Falsy chaining never yields the empty string when the fallback is
non-empty. -/
theorem jsOr_ne_empty (a b : String) (hb : b ≠ "") : jsOr a b ≠ "" := by
  rw [jsOr]
  split
  · exact hb
  · assumption

/-- Any event actually emitted by `captureCurrentWindow` is the
`mkDetails` record for the introspected window. -/
theorem captureCurrentWindow_mem_emits
    (winAt : Int → Option HyprlandWindow) (t : Int) (reason : String)
    (s : TrackerState) (p : Int × Option ActiveWindowDetails)
    (d : ActiveWindowDetails)
    (hp : p ∈ (captureCurrentWindow winAt t reason s).2) (hd : p.2 = some d) :
    ∃ w, winAt t = some w ∧ d = mkDetails w t reason := by
  rcases hw : winAt t with _ | w <;> simp only [captureCurrentWindow, hw] at hp
  · simp at hp
    rw [hp] at hd
    simp at hd
  · split at hp
    · simp at hp
    · simp at hp
      rw [hp] at hd
      simp at hd
      exact ⟨w, rfl, hd.symm⟩

/-- C9: every event emitted by the pipeline — window-tracker captures,
synthetic system events, and browser-enriched events — has a non-empty
`ownerName` and a timestamp no later than the capture instant, and `url`
is populated only on browser-kind events; enrichment leaves non-browser
events entirely unchanged. -/
theorem pipeline_event_invariants :
    (∀ (winAt : Int → Option HyprlandWindow) (t : Int) (reason : String)
        (s : TrackerState),
      ∀ p ∈ (captureCurrentWindow winAt t reason s).2, ∀ d, p.2 = some d →
        eventInvariant t d) ∧
    (∀ (ty : SystemEventType) (t : Int), eventInvariant t (emitSystemEvent ty t)) ∧
    (∀ (details : ActiveWindowDetails) (tab : Option BrowserTab),
      details.type ≠ "browser" → enrichWithBrowserUrl details tab = details) ∧
    (∀ (details : ActiveWindowDetails) (tab : Option BrowserTab) (now : Int),
      eventInvariant now details → eventInvariant now (enrichWithBrowserUrl details tab)) := by
  refine ⟨?_, ?_, ?_, ?_⟩
  · intro winAt t reason s p hp d hd
    obtain ⟨w, -, rfl⟩ := captureCurrentWindow_mem_emits winAt t reason s p d hp hd
    refine ⟨jsOr_ne_empty _ _ (jsOr_ne_empty _ _ (by decide)), le_refl t, ?_⟩
    intro h
    exact absurd rfl h
  · intro ty t
    refine ⟨?_, le_refl t, fun h => absurd rfl h⟩
    cases ty <;> simp [emitSystemEvent, systemOwnerName]
  · intro details tab h
    simp [enrichWithBrowserUrl, h]
  · intro details tab now hinv
    by_cases hcond : details.type ≠ "browser" ∨ details.browser = none
    · simpa [enrichWithBrowserUrl, hcond] using hinv
    · push_neg at hcond
      rcases tab with _ | tb
      · simpa [enrichWithBrowserUrl, hcond.1, hcond.2] using hinv
      · rw [eventInvariant] at hinv ⊢
        simp only [enrichWithBrowserUrl, hcond.1, hcond.2]
        simp
        exact ⟨hinv.1, hinv.2.1⟩

/-- Witness for C9: a concrete app-switch capture, a concrete sleep event,
and enrichment of a concrete non-browser event, all satisfying the
invariant verbatim. -/
theorem pipeline_event_invariants_witness :
    eventInvariant 5 (mkDetails ⟨"0x9", "kitty", "kitty", "sh"⟩ 5 "app_switch") ∧
    eventInvariant 6 (emitSystemEvent SystemEventType.sleep 6) ∧
    enrichWithBrowserUrl (mkDetails ⟨"0x9", "kitty", "kitty", "sh"⟩ 5 "app_switch")
        (some ⟨"https://x.test/", "X"⟩) =
      mkDetails ⟨"0x9", "kitty", "kitty", "sh"⟩ 5 "app_switch" :=
  ⟨(pipeline_event_invariants.1 (fun _ => some ⟨"0x9", "kitty", "kitty", "sh"⟩) 5
      "app_switch" initialTrackerState
      (5, some (mkDetails ⟨"0x9", "kitty", "kitty", "sh"⟩ 5 "app_switch"))
      (by decide) _ rfl),
   pipeline_event_invariants.2.1 SystemEventType.sleep 6,
   pipeline_event_invariants.2.2.1 _ (some ⟨"https://x.test/", "X"⟩) (by decide)⟩

/-- C10: no window-tracker event ever carries `captureReason = 'initial'`:
`captureCurrentWindow` maps every reason other than `periodic_backup`
(including the `initial` reason `start()` requests) to `app_switch`, so
every emitted event's reason is `app_switch` or `periodic_backup`. -/
theorem capture_reason_never_initial (winAt : Int → Option HyprlandWindow)
    (t : Int) (reason : String) (s : TrackerState) :
    (∀ p ∈ (captureCurrentWindow winAt t reason s).2, ∀ d, p.2 = some d →
      d.captureReason = "app_switch" ∨ d.captureReason = "periodic_backup") ∧
    (reason ≠ "periodic_backup" →
      ∀ p ∈ (captureCurrentWindow winAt t reason s).2, ∀ d, p.2 = some d →
        d.captureReason = "app_switch") := by
  constructor
  · intro p hp d hd
    obtain ⟨w, -, rfl⟩ := captureCurrentWindow_mem_emits winAt t reason s p d hp hd
    rw [mkDetails]
    by_cases h : reason = "periodic_backup" <;> simp [h]
  · intro hreason p hp d hd
    obtain ⟨w, -, rfl⟩ := captureCurrentWindow_mem_emits winAt t reason s p d hp hd
    rw [mkDetails]
    simp [hreason]

/-- Witness for C10: the capture `start()` requests with reason `initial`
is emitted carrying `app_switch`. -/
theorem capture_reason_never_initial_witness :
    (mkDetails ⟨"0x9", "kitty", "kitty", "sh"⟩ 5 "initial").captureReason
      = "app_switch" :=
  (capture_reason_never_initial (fun _ => some ⟨"0x9", "kitty", "kitty", "sh"⟩) 5
      "initial" initialTrackerState).2 (by decide)
    (5, some (mkDetails ⟨"0x9", "kitty", "kitty", "sh"⟩ 5 "initial"))
    (by decide) _ rfl

/-- While a switch arrives less than 100 ms + 10 s after the previous one,
the pending timers fire no capture before it is handled; handling the new
`activewindow` record re-arms the stabilization timer from its own arrival
time. -/
theorem burst_step (winAt : Int → Option HyprlandWindow) (t0 t : Int)
    (la : Option String) (ld : Option ActiveWindowDetails) (line : String)
    (hub : t < t0 + (STABILIZATION_DELAY_MS + DEBOUNCE_DELAY_MS))
    (hline : parseEventType line = "activewindow") :
    (fireDue winAt t (switchPendingState t0 la ld)).2 = [] ∧
    handleEvent t line (fireDue winAt t (switchPendingState t0 la ld)).1 =
      switchPendingState t la ld := by
  have hnd : ¬ (t0 + STABILIZATION_DELAY_MS + DEBOUNCE_DELAY_MS ≤ t) := by
    simp only [STABILIZATION_DELAY_MS, DEBOUNCE_DELAY_MS] at hub ⊢
    omega
  by_cases h1 : t0 + STABILIZATION_DELAY_MS ≤ t <;>
    simp [fireDue, switchPendingState, handleEvent, handleWindowSwitch, h1, hnd, hline]

/-- Within a burst of `activewindow` records each arriving while the
previous record's timers are pending, no capture is emitted and the state
tracks the latest arrival. -/
theorem runEvents_burst (winAt : Int → Option HyprlandWindow) :
    ∀ (rest : List (Int × String)) (t0 : Int) (la : Option String)
      (ld : Option ActiveWindowDetails),
      (∀ e ∈ rest, parseEventType e.2 = "activewindow") →
      List.Chain
        (fun a b => a < b ∧ b < a + (STABILIZATION_DELAY_MS + DEBOUNCE_DELAY_MS))
        t0 (rest.map (·.1)) →
      runEvents winAt rest (switchPendingState t0 la ld) =
        (switchPendingState ((rest.map (·.1)).getLastD t0) la ld, []) := by
  intro rest
  induction rest with
  | nil => intro t0 la ld _ _; simp [runEvents]
  | cons e rest ih =>
    rintro t0 la ld hall hchain
    obtain ⟨t, line⟩ := e
    rw [List.map_cons, List.chain_cons] at hchain
    obtain ⟨⟨hlt, hub⟩, hchain⟩ := hchain
    have hline : parseEventType line = "activewindow" :=
      hall (t, line) (List.mem_cons_self _ _)
    have hrest : ∀ e ∈ rest, parseEventType e.2 = "activewindow" :=
      fun e he => hall e (List.mem_cons_of_mem _ he)
    obtain ⟨hfire, hstep⟩ := burst_step winAt t0 t la ld line hub hline
    rw [runEvents]
    simp only [hstep, hfire, ih t la ld hrest hchain, List.map_cons,
      List.getLastD_cons]
    simp

/-- Records other than `activewindow` leave a freshly started tracker
completely untouched and emit nothing. -/
theorem runEvents_ignored (winAt : Int → Option HyprlandWindow) :
    ∀ events : List (Int × String),
      (∀ e ∈ events, parseEventType e.2 ≠ "activewindow") →
      runEvents winAt events initialTrackerState = (initialTrackerState, []) := by
  intro events
  induction events with
  | nil => intro _; rfl
  | cons e rest ih =>
    intro hall
    obtain ⟨t, line⟩ := e
    have hline : ¬ parseEventType line = "activewindow" :=
      hall (t, line) (List.mem_cons_self _ _)
    have hfd : fireDue winAt t initialTrackerState = (initialTrackerState, []) := rfl
    have hhe : handleEvent t line initialTrackerState = initialTrackerState := by
      rw [handleEvent, if_neg hline]
    rw [runEvents]
    simp only [hfd, hhe, ih (fun e he => hall e (List.mem_cons_of_mem _ he))]
    simp

/-- C2: a burst of `activewindow` socket records, each arriving while the
previous record's stabilization or debounce timer is still pending,
triggers exactly one capture tagged `app_switch`, and only at the last
arrival time plus the 100 ms stabilization delay plus the 10 s debounce
window, reflecting the window the introspection query resolves at that
moment; records of other types (`activewindowv2`, `workspace`,
`closewindow`, unknown) trigger no capture and leave the tracker state
untouched. -/
theorem debounced_burst_single_capture (winAt : Int → Option HyprlandWindow) :
    (∀ (t1 : Int) (l1 : String) (rest : List (Int × String))
        (w : HyprlandWindow) (tN : Int),
      (∀ e ∈ (t1, l1) :: rest, parseEventType e.2 = "activewindow") →
      List.Chain
        (fun a b => a < b ∧ b < a + (STABILIZATION_DELAY_MS + DEBOUNCE_DELAY_MS))
        t1 (rest.map (·.1)) →
      tN = (rest.map (·.1)).getLastD t1 →
      winAt (tN + STABILIZATION_DELAY_MS + DEBOUNCE_DELAY_MS) = some w →
      (runTrace winAt ((t1, l1) :: rest)).2 =
        [(tN + STABILIZATION_DELAY_MS + DEBOUNCE_DELAY_MS,
          some (mkDetails w (tN + STABILIZATION_DELAY_MS + DEBOUNCE_DELAY_MS)
            "app_switch"))]) ∧
    (∀ events : List (Int × String),
      (∀ e ∈ events, parseEventType e.2 ≠ "activewindow") →
      runTrace winAt events = (initialTrackerState, [])) := by
  constructor
  · rintro t1 l1 rest w tN hall hchain rfl hwin
    have h1 : parseEventType l1 = "activewindow" :=
      hall (t1, l1) (List.mem_cons_self _ _)
    have hrest : ∀ e ∈ rest, parseEventType e.2 = "activewindow" :=
      fun e he => hall e (List.mem_cons_of_mem _ he)
    rw [runTrace, runEvents]
    simp only [fireDue, initialTrackerState]
    simp only [handleEvent, if_pos h1]
    have hsw : handleWindowSwitch t1
        { timer := none, pendingCaptureReason := none,
          lastWindowAddress := none, lastWindowDetails := none } =
        switchPendingState t1 none none := rfl
    rw [hsw, runEvents_burst winAt rest t1 none none hrest hchain]
    simp only [flushTimers, switchPendingState]
    rw [captureCurrentWindow, hwin]
    simp
  · intro events hall
    rw [runTrace, runEvents_ignored winAt events hall]
    simp [flushTimers, initialTrackerState]

/-- Witness for C2: two switches 5 s apart (within one debounce window)
produce exactly one `app_switch` capture at `5000 + 100 + 10000`,
reflecting the window introspected then; `workspace` and `closewindow`
records produce nothing. -/
theorem debounced_burst_single_capture_witness :
    (runTrace (fun _ => some ⟨"0x2", "firefox", "firefox", "b"⟩)
        [(0, "activewindow>>kitty,a"), (5000, "activewindow>>firefox,b")]).2 =
      [(15100,
        some (mkDetails ⟨"0x2", "firefox", "firefox", "b"⟩ 15100 "app_switch"))] ∧
    runTrace (fun _ => some ⟨"0x2", "firefox", "firefox", "b"⟩)
        [(1, "workspace>>2"), (2, "closewindow>>0x5")] =
      (initialTrackerState, []) :=
  ⟨(debounced_burst_single_capture
        (fun _ => some ⟨"0x2", "firefox", "firefox", "b"⟩)).1 0
      "activewindow>>kitty,a" [(5000, "activewindow>>firefox,b")]
      ⟨"0x2", "firefox", "firefox", "b"⟩ 5000 (by decide)
      (List.Chain.cons (by decide) List.Chain.nil) (by decide) rfl,
   (debounced_burst_single_capture
        (fun _ => some ⟨"0x2", "firefox", "firefox", "b"⟩)).2
      [(1, "workspace>>2"), (2, "closewindow>>0x5")] (by decide)⟩

/-- Filtering an interleaving by a predicate that holds on all of the left
component and on none of the right recovers the left component. -/
theorem interleaving_filter {p : Nat × Bool → Bool}
    {xs ys zs : List (Nat × Bool)} (h : Interleaving xs ys zs)
    (hx : ∀ s ∈ xs, p s = true) (hy : ∀ s ∈ ys, p s = false) :
    zs.filter p = xs := by
  induction h with
  | nil => rfl
  | left h ih =>
    rename_i x xs ys zs
    rw [List.filter_cons, if_pos (by simp [hx x (List.mem_cons_self _ _)])]
    rw [ih (fun s hs => hx s (List.mem_cons_of_mem _ hs)) hy]
  | right h ih =>
    rename_i y xs ys zs
    rw [List.filter_cons, if_neg (by simp [hy y (List.mem_cons_self _ _)])]
    exact ih hx (fun s hs => hy s (List.mem_cons_of_mem _ hs))

/-- A step of an operation targeting folder `f` preserves agreement on `f`
when taken on both sides. -/
theorem execStep_agrees (spec : Nat → FolderOp) (f : String)
    {st1 st2 : ExecState} (h : agreesOnFolder spec f st1 st2)
    (s : Nat × Bool) (hs : (spec s.1).folder = f) :
    agreesOnFolder spec f (execStep spec st1 s) (execStep spec st2 s) := by
  obtain ⟨hstore, hsnap⟩ := h
  obtain ⟨i, w⟩ := s
  cases w
  · refine ⟨hstore, fun j hj => ?_⟩
    simp only [execStep]
    by_cases hji : j = i
    · subst hji
      simp [hs, hstore]
    · simp [hji, hsnap j hj]
  · simp only [execStep]
    by_cases hfail : (spec i).writeFails
    · simp only [if_pos hfail]
      exact ⟨hstore, hsnap⟩
    · simp only [if_neg hfail]
      refine ⟨?_, hsnap⟩
      simp [hs, hsnap i hs]

/-- A step of an operation targeting a different folder leaves the `f`-view
of the state unchanged. -/
theorem execStep_other (spec : Nat → FolderOp) (f : String)
    {st1 st2 : ExecState} (h : agreesOnFolder spec f st1 st2)
    (s : Nat × Bool) (hs : (spec s.1).folder ≠ f) :
    agreesOnFolder spec f (execStep spec st1 s) st2 := by
  obtain ⟨hstore, hsnap⟩ := h
  obtain ⟨i, w⟩ := s
  cases w
  · refine ⟨hstore, fun j hj => ?_⟩
    by_cases hji : j = i
    · subst hji
      exact absurd hj hs
    · simp [execStep, hji, hsnap j hj]
  · by_cases hfail : (spec i).writeFails
    · constructor
      · simp [execStep, hfail, hstore]
      · intro j hj
        simp [execStep, hfail, hsnap j hj]
    · constructor
      · simp [execStep, hfail, Ne.symm hs, hstore]
      · intro j hj
        simp [execStep, hfail, hsnap j hj]

/-- Running any schedule affects the `f`-view of the state exactly as
running only its `f`-steps does. -/
theorem execTrace_agrees (spec : Nat → FolderOp) (f : String) :
    ∀ (tr : List (Nat × Bool)) (st1 st2 : ExecState),
      agreesOnFolder spec f st1 st2 →
      agreesOnFolder spec f (execTrace spec st1 tr)
        (execTrace spec st2 (tr.filter (fun s => (spec s.1).folder == f))) := by
  intro tr
  induction tr with
  | nil => intro st1 st2 h; exact h
  | cons s tr ih =>
    intro st1 st2 h
    by_cases hf : (spec s.1).folder = f
    · rw [List.filter_cons, if_pos (by simpa using hf)]
      exact ih _ _ (execStep_agrees spec f h s hf)
    · rw [List.filter_cons, if_neg (by simpa using hf)]
      exact ih _ _ (execStep_other spec f h s hf)

/-- Sequential execution of two successful queued updates for one folder:
the final index is the stable ascending sort of both entries. -/
theorem exec_queue_both_ok (spec : Nat → FolderOp) (f : String)
    (e0 e1 : MetaEntry) (h0 : spec 0 = ⟨f, e0, false⟩)
    (h1 : spec 1 = ⟨f, e1, false⟩) :
    (execTrace spec initExecState
        [(0, false), (0, true), (1, false), (1, true)]).store f =
      List.insertionSort tsLe [e0, e1] := by
  simp [execTrace, execStep, h0, h1, mergeEntries, initExecState,
    List.insertionSort, List.orderedInsert]

/-- Sequential execution where the first queued update's write fails: the
second update still runs and lands. -/
theorem exec_queue_first_fails (spec : Nat → FolderOp) (f : String)
    (e0 e1 : MetaEntry) (h0 : spec 0 = ⟨f, e0, true⟩)
    (h1 : spec 1 = ⟨f, e1, false⟩) :
    (execTrace spec initExecState
        [(0, false), (0, true), (1, false), (1, true)]).store f = [e1] := by
  simp [execTrace, execStep, h0, h1, mergeEntries, initExecState,
    List.insertionSort, List.orderedInsert]

/-- Updates to two distinct folders land in their own indices in either
completion order. -/
theorem exec_cross_folders (spec : Nat → FolderOp) (f g : String)
    (e0 e2 : MetaEntry) (hgf : g ≠ f) (h0 : spec 0 = ⟨f, e0, false⟩)
    (h1 : spec 1 = ⟨g, e2, false⟩) :
    (execTrace spec initExecState (opProgram 0 ++ opProgram 1)).store f = [e0] ∧
    (execTrace spec initExecState (opProgram 0 ++ opProgram 1)).store g = [e2] ∧
    (execTrace spec initExecState (opProgram 1 ++ opProgram 0)).store f = [e0] ∧
    (execTrace spec initExecState (opProgram 1 ++ opProgram 0)).store g = [e2] := by
  refine ⟨?_, ?_, ?_, ?_⟩ <;>
    simp [execTrace, execStep, opProgram, h0, h1, mergeEntries, initExecState,
      List.insertionSort, List.orderedInsert, hgf, Ne.symm hgf]

/-- C3: two concurrent metadata updates for the same date folder never
interleave their read-modify-write cycles — under any event-loop schedule
the folder's steps happen as the queue's sequential program, the final
index holds both entries sorted ascending by timestamp with no lost
update; a failed queued operation does not block the next one for that
folder; and updates for two distinct folders may complete in either
relative order. -/
theorem metadata_queue_serializes (f : String) (e0 e1 : MetaEntry) :
    (∀ spec : Nat → FolderOp, spec 0 = ⟨f, e0, false⟩ → spec 1 = ⟨f, e1, false⟩ →
      ∀ other zs : List (Nat × Bool),
        Interleaving (folderQueueProgram [0, 1]) other zs →
        (∀ s ∈ other, (spec s.1).folder ≠ f) →
        zs.filter (fun s => (spec s.1).folder == f) =
          [(0, false), (0, true), (1, false), (1, true)] ∧
        (execTrace spec initExecState zs).store f =
          List.insertionSort tsLe [e0, e1] ∧
        e0 ∈ (execTrace spec initExecState zs).store f ∧
        e1 ∈ (execTrace spec initExecState zs).store f ∧
        List.Sorted tsLe ((execTrace spec initExecState zs).store f)) ∧
    (∀ spec : Nat → FolderOp, spec 0 = ⟨f, e0, true⟩ → spec 1 = ⟨f, e1, false⟩ →
      ∀ other zs : List (Nat × Bool),
        Interleaving (folderQueueProgram [0, 1]) other zs →
        (∀ s ∈ other, (spec s.1).folder ≠ f) →
        (execTrace spec initExecState zs).store f = [e1]) ∧
    (∀ (g : String) (e2 : MetaEntry), g ≠ f →
      ∀ spec : Nat → FolderOp, spec 0 = ⟨f, e0, false⟩ → spec 1 = ⟨g, e2, false⟩ →
        Interleaving (opProgram 0) (opProgram 1) (opProgram 0 ++ opProgram 1) ∧
        Interleaving (opProgram 0) (opProgram 1) (opProgram 1 ++ opProgram 0) ∧
        (execTrace spec initExecState (opProgram 0 ++ opProgram 1)).store f = [e0] ∧
        (execTrace spec initExecState (opProgram 0 ++ opProgram 1)).store g = [e2] ∧
        (execTrace spec initExecState (opProgram 1 ++ opProgram 0)).store f = [e0] ∧
        (execTrace spec initExecState (opProgram 1 ++ opProgram 0)).store g = [e2]) := by
  have hfilter : ∀ (spec : Nat → FolderOp),
      (spec 0).folder = f → (spec 1).folder = f →
      ∀ other zs : List (Nat × Bool),
        Interleaving (folderQueueProgram [0, 1]) other zs →
        (∀ s ∈ other, (spec s.1).folder ≠ f) →
        zs.filter (fun s => (spec s.1).folder == f) =
          [(0, false), (0, true), (1, false), (1, true)] := by
    intro spec h0 h1 other zs hint hother
    apply interleaving_filter hint
    · intro s hs
      have hcases : s = (0, false) ∨ s = (0, true) ∨ s = (1, false) ∨ s = (1, true) := by
        simpa [folderQueueProgram, opProgram] using hs
      rcases hcases with rfl | rfl | rfl | rfl <;> simp [h0, h1]
    · intro s hs
      simpa using hother s hs
  refine ⟨?_, ?_, ?_⟩
  · intro spec h0 h1 other zs hint hother
    have hfil := hfilter spec (by rw [h0]) (by rw [h1]) other zs hint hother
    have hagree := execTrace_agrees spec f zs initExecState initExecState
      ⟨rfl, fun _ _ => rfl⟩
    rw [hfil] at hagree
    have hstore : (execTrace spec initExecState zs).store f =
        List.insertionSort tsLe [e0, e1] := by
      rw [hagree.1, exec_queue_both_ok spec f e0 e1 h0 h1]
    refine ⟨hfil, hstore, ?_, ?_, ?_⟩
    · rw [hstore]
      exact (List.perm_insertionSort tsLe [e0, e1]).mem_iff.mpr (by simp)
    · rw [hstore]
      exact (List.perm_insertionSort tsLe [e0, e1]).mem_iff.mpr (by simp)
    · rw [hstore]
      exact List.sorted_insertionSort tsLe [e0, e1]
  · intro spec h0 h1 other zs hint hother
    have hfil := hfilter spec (by rw [h0]) (by rw [h1]) other zs hint hother
    have hagree := execTrace_agrees spec f zs initExecState initExecState
      ⟨rfl, fun _ _ => rfl⟩
    rw [hfil] at hagree
    rw [hagree.1, exec_queue_first_fails spec f e0 e1 h0 h1]
  · intro g e2 hgf spec h0 h1
    obtain ⟨ha, hb, hc, hd⟩ := exec_cross_folders spec f g e0 e2 hgf h0 h1
    refine ⟨?_, ?_, ha, hb, hc, hd⟩
    · show Interleaving [(0, false), (0, true)] [(1, false), (1, true)]
        [(0, false), (0, true), (1, false), (1, true)]
      exact .left (.left (.right (.right .nil)))
    · show Interleaving [(0, false), (0, true)] [(1, false), (1, true)]
        [(1, false), (1, true), (0, false), (0, true)]
      exact .right (.right (.left (.left .nil)))

/-- Witness for C3: two concrete out-of-order entries queued for folder
`d` under the empty outside schedule end up both present and sorted
ascending by timestamp. -/
theorem metadata_queue_serializes_witness :
    (execTrace
        (fun i => if i = 0 then ⟨"d", ⟨5, "p5", "n5", "a", "t"⟩, false⟩
          else ⟨"d", ⟨3, "p3", "n3", "b", "u"⟩, false⟩)
        initExecState (folderQueueProgram [0, 1])).store "d" =
      List.insertionSort tsLe
        [⟨5, "p5", "n5", "a", "t"⟩, ⟨3, "p3", "n3", "b", "u"⟩] ∧
    (⟨5, "p5", "n5", "a", "t"⟩ : MetaEntry) ∈
      (execTrace
        (fun i => if i = 0 then ⟨"d", ⟨5, "p5", "n5", "a", "t"⟩, false⟩
          else ⟨"d", ⟨3, "p3", "n3", "b", "u"⟩, false⟩)
        initExecState (folderQueueProgram [0, 1])).store "d" ∧
    (⟨3, "p3", "n3", "b", "u"⟩ : MetaEntry) ∈
      (execTrace
        (fun i => if i = 0 then ⟨"d", ⟨5, "p5", "n5", "a", "t"⟩, false⟩
          else ⟨"d", ⟨3, "p3", "n3", "b", "u"⟩, false⟩)
        initExecState (folderQueueProgram [0, 1])).store "d" ∧
    List.Sorted tsLe
      ((execTrace
        (fun i => if i = 0 then ⟨"d", ⟨5, "p5", "n5", "a", "t"⟩, false⟩
          else ⟨"d", ⟨3, "p3", "n3", "b", "u"⟩, false⟩)
        initExecState (folderQueueProgram [0, 1])).store "d") := by
  obtain ⟨-, h2, h3, h4, h5⟩ :=
    (metadata_queue_serializes "d" ⟨5, "p5", "n5", "a", "t"⟩
        ⟨3, "p3", "n3", "b", "u"⟩).1
      (fun i => if i = 0 then ⟨"d", ⟨5, "p5", "n5", "a", "t"⟩, false⟩
        else ⟨"d", ⟨3, "p3", "n3", "b", "u"⟩, false⟩) rfl rfl []
      (folderQueueProgram [0, 1])
      (show Interleaving [(0, false), (0, true), (1, false), (1, true)] []
          [(0, false), (0, true), (1, false), (1, true)] from
        .left (.left (.left (.left .nil))))
      (by simp)
  exact ⟨h2, h3, h4, h5⟩

/-- The cleanup loop deletes exactly the dates below the cutoff whose
removal succeeds, counting them, and a failed removal does not stop the
loop. -/
theorem cleanup_foldl_spec (cutoff : String) (rmOk : String → Bool) :
    ∀ (dates : List String) (acc : Nat × List String),
      dates.foldl
        (fun acc date =>
          if jsStrLt date cutoff then
            if rmOk date then (acc.1 + 1, acc.2 ++ [date]) else acc
          else acc) acc =
      (acc.1 + (dates.filter (fun d => jsStrLt d cutoff && rmOk d)).length,
       acc.2 ++ dates.filter (fun d => jsStrLt d cutoff && rmOk d)) := by
  intro dates
  induction dates with
  | nil => intro acc; simp
  | cons d rest ih =>
    intro acc
    rw [List.foldl_cons]
    by_cases h1 : jsStrLt d cutoff
    · by_cases h2 : rmOk d
      · rw [if_pos h1, if_pos h2, ih]
        simp [List.filter_cons, h1, h2, Prod.ext_iff]
        omega
      · rw [if_pos h1, if_neg h2, ih]
        simp [List.filter_cons, h1, h2]
    · rw [if_neg h1, ih]
      simp [List.filter_cons, h1]

/-- C8: `cleanupOldScreenshots(keepDays)` deletes exactly the validly-named
date folders lexicographically (equivalently, chronologically) strictly
below today minus `keepDays`, returns the number of folders whose deletion
succeeded, and a per-folder deletion failure is skipped without aborting
the rest; with folders dated today, 3 days ago and 10 days ago and
`keepDays = 7`, only the 10-days-ago folder is removed and the count is
1. -/
theorem cleanup_prunes_strictly_older (todayDays keepDays : Nat)
    (entries : List (String × Bool)) (rmOk : String → Bool) :
    (cleanupOldScreenshots todayDays keepDays entries rmOk).2 =
      (getAvailableDates entries).filter
        (fun d =>
          jsStrLt d (formatLocalDateYYYYMMDD (civilFromDays (todayDays - keepDays)))
            && rmOk d) ∧
    (cleanupOldScreenshots todayDays keepDays entries rmOk).1 =
      (cleanupOldScreenshots todayDays keepDays entries rmOk).2.length ∧
    (∀ d, d ∈ (cleanupOldScreenshots todayDays keepDays entries rmOk).2 ↔
      d ∈ getAvailableDates entries ∧
      jsStrLt d (formatLocalDateYYYYMMDD (civilFromDays (todayDays - keepDays))) = true ∧
      rmOk d = true) ∧
    (∀ d, d ∈ getAvailableDates entries ↔
      (d, true) ∈ entries ∧ isValidDateName d = true) ∧
    cleanupOldScreenshots 740000 7
      [("2026-03-20", true), ("2026-03-17", true), ("2026-03-10", true)]
      (fun _ => true) = (1, ["2026-03-10"]) := by
  have hrun : cleanupOldScreenshots todayDays keepDays entries rmOk =
      (((getAvailableDates entries).filter
          (fun d =>
            jsStrLt d (formatLocalDateYYYYMMDD (civilFromDays (todayDays - keepDays)))
              && rmOk d)).length,
        (getAvailableDates entries).filter
          (fun d =>
            jsStrLt d (formatLocalDateYYYYMMDD (civilFromDays (todayDays - keepDays)))
              && rmOk d)) := by
    rw [cleanupOldScreenshots, cleanup_foldl_spec]
    simp
  refine ⟨by rw [hrun], by rw [hrun], ?_, ?_, by decide⟩
  · intro d
    rw [hrun]
    simp [List.mem_filter, Bool.and_eq_true, and_assoc]
  · intro d
    constructor
    · intro hd
      rw [getAvailableDates, List.mem_reverse,
        (List.perm_insertionSort _ _).mem_iff, List.mem_map] at hd
      obtain ⟨e, he, rfl⟩ := hd
      rw [List.mem_filter, Bool.and_eq_true] at he
      obtain ⟨hmem, h2, hv⟩ := he
      refine ⟨?_, hv⟩
      obtain ⟨a, b⟩ := e
      simp only at h2
      rwa [h2] at hmem
    · rintro ⟨hmem, hv⟩
      rw [getAvailableDates, List.mem_reverse,
        (List.perm_insertionSort _ _).mem_iff, List.mem_map]
      exact ⟨(d, true), List.mem_filter.mpr ⟨hmem, by simp [hv]⟩, rfl⟩

/-- Witness for C8: the concrete prune scenario — folders dated today
(2026-03-20), 3 days ago and 10 days ago, `keepDays = 7` — removes only
the 10-days-ago folder and returns count 1. -/
theorem cleanup_prunes_strictly_older_witness :
    cleanupOldScreenshots 740000 7
      [("2026-03-20", true), ("2026-03-17", true), ("2026-03-10", true)]
      (fun _ => true) = (1, ["2026-03-10"]) :=
  (cleanup_prunes_strictly_older 740000 7
      [("2026-03-20", true), ("2026-03-17", true), ("2026-03-10", true)]
      (fun _ => true)).2.2.2.2

end Cronus
